import Mathlib

/-!
Verification of the `restructure` control-flow structuring tool.

The driver (`restructure`, `findPrim`, the `subs` pattern library order) is
embedded from `restructure.go`.  The subgraph-isomorphism search
(`iso.Search`), the reduction operation (`merge.Merge`), and the concrete
pattern shapes (`*.dot` files under `decomp.org/x/graphs/testdata/primitives`)
live in external packages, so they are modelled from the specification
(sections 4.2 and 4.3): a deterministic backtracking search over role
assignments in a fixed stable order, interior nodes requiring exact edge sets,
boundary nodes (entry/exit) allowing extra incoming respectively outgoing
edges, and a merge that rebinds boundary edges to a fresh synthetic node.
-/

namespace Restructure

/-- A control flow graph: ordered list of node ids and directed edges.
Mirrors `dot.Graph` as used by `restructure.go` (`graph.Nodes.Nodes` is an
ordered slice; edges are ordered pairs, no parallel duplicates). -/
structure Graph where
  nodes : List String
  edges : List (String × String)
deriving DecidableEq

/-- Modelled from the spec: a pattern (`graphs.SubGraph`) is a small graph
whose node names are the role names ("A", "B", ...), with a designated entry
node and exit node, plus a kind name ("if", "pre_loop", ...).  The `*.dot`
pattern files are not part of this repository's sources. -/
structure SubGraph where
  name : String
  roles : List String
  edges : List (String × String)
  entry : String
  exit : String
deriving DecidableEq

/-- One recovered control flow primitive, as in `restructure.go`:
kind name, synthetic node id, and role-to-node mapping (an association
list in role order models the Go `map[string]string`). -/
structure Primitive where
  prim : String
  node : String
  nodes : List (String × String)
deriving DecidableEq

/-- Successors of a node in the graph. -/
def succsOf (g : Graph) (n : String) : List String :=
  (g.edges.filter (fun e => e.1 == n)).map (fun e => e.2)

/-- Predecessors of a node in the graph. -/
def predsOf (g : Graph) (n : String) : List String :=
  (g.edges.filter (fun e => e.2 == n)).map (fun e => e.1)

/-- Successor roles of a role inside a pattern. -/
def subSuccs (sub : SubGraph) (r : String) : List String :=
  (sub.edges.filter (fun e => e.1 == r)).map (fun e => e.2)

/-- Predecessor roles of a role inside a pattern. -/
def subPreds (sub : SubGraph) (r : String) : List String :=
  (sub.edges.filter (fun e => e.2 == r)).map (fun e => e.1)

/-- Look up the graph node assigned to a role by a match. -/
def mlookup (m : List (String × String)) (r : String) : String :=
  match m.find? (fun p => p.1 == r) with
  | some p => p.2
  | none => ""

/-- Finite-set equality of two lists of node ids (mutual containment). -/
def setEq (xs ys : List String) : Bool :=
  xs.all (fun x => ys.contains x) && ys.all (fun y => xs.contains y)

/-- All entries of the list are pairwise distinct. -/
def allDistinct : List String → Bool
  | [] => true
  | x :: xs => !(xs.contains x) && allDistinct xs

/-- Modelled from the spec: all role assignments, enumerated in a fixed
stable order (roles in pattern order, candidates in graph node order), so
that repeated searches are deterministic and return the same first match. -/
def assignments : List String → List String → List (List (String × String))
  | [], _ => [[]]
  | r :: rs, nodes =>
      nodes.flatMap (fun n => (assignments rs nodes).map (fun m => (r, n) :: m))

/-- Modelled from the spec (section 4.2): a candidate assignment is a match
when it is injective, every pattern edge maps to a graph edge, and each
role's neighbourhood agrees with the pattern: preds must agree exactly for
every role but the entry (the surrounding graph may still enter there),
succs must agree exactly for every role but the exit (the surrounding graph
may still be reached from there). -/
def validMatch (g : Graph) (sub : SubGraph) (m : List (String × String)) : Bool :=
  allDistinct (m.map (fun p => p.2)) &&
  sub.edges.all (fun e => g.edges.contains (mlookup m e.1, mlookup m e.2)) &&
  sub.roles.all (fun r =>
    ((r == sub.entry) ||
      setEq (predsOf g (mlookup m r)) ((subPreds sub r).map (mlookup m))) &&
    ((r == sub.exit) ||
      setEq (succsOf g (mlookup m r)) ((subSuccs sub r).map (mlookup m))))

/-- Modelled from the spec: `iso.Search` returns the first valid match in
the fixed enumeration order, or `none` when the search space is exhausted. -/
def Search (g : Graph) (sub : SubGraph) : Option (List (String × String)) :=
  (assignments sub.roles g.nodes).find? (fun m => validMatch g sub m)

/-- Remove duplicate edges, keeping first occurrences. -/
def dedupEdges (es : List (String × String)) : List (String × String) :=
  es.foldl (fun acc e => if acc.contains e then acc else acc ++ [e]) []

/-- Modelled from the spec (section 4.3): `merge.Merge` removes the matched
nodes, appends one fresh synthetic node, drops edges internal to the match,
rebinds boundary edges to the synthetic node, and collapses duplicates. -/
def mergeG (g : Graph) (m : List (String × String)) (fresh : String) : Graph :=
  let image := m.map (fun p => p.2)
  { nodes := g.nodes.filter (fun n => !(image.contains n)) ++ [fresh]
  , edges := dedupEdges (g.edges.filterMap (fun e =>
      if image.contains e.1 && image.contains e.2 then none
      else some ((if image.contains e.1 then fresh else e.1),
                 (if image.contains e.2 then fresh else e.2)))) }

/-- Modelled from the spec: the fresh synthetic node id is the pattern kind
name followed by a monotonically increasing per-kind counter ("list0",
"if0", ...), as witnessed by the golden outputs in `restructure_test.go`. -/
def freshName (acc : List Primitive) (kind : String) : String :=
  kind ++ toString (acc.countP (fun p => p.prim == kind))

/-- Modelled from the spec: pre-test loop shape (condition A, body B,
exit C). -/
def preLoopSub : SubGraph :=
  { name := "pre_loop", roles := ["A", "B", "C"]
  , edges := [("A", "B"), ("B", "A"), ("A", "C")]
  , entry := "A", exit := "C" }

/-- Modelled from the spec: post-test loop shape (body-with-condition A
looping to itself, exit B); self-loops are permitted by the graph model. -/
def postLoopSub : SubGraph :=
  { name := "post_loop", roles := ["A", "B"]
  , edges := [("A", "A"), ("A", "B")]
  , entry := "A", exit := "B" }

/-- Modelled from the spec: two-block sequence shape. -/
def listSub : SubGraph :=
  { name := "list", roles := ["A", "B"]
  , edges := [("A", "B")]
  , entry := "A", exit := "B" }

/-- Modelled from the spec: one-branch conditional shape. -/
def ifSub : SubGraph :=
  { name := "if", roles := ["A", "B", "C"]
  , edges := [("A", "B"), ("A", "C"), ("B", "C")]
  , entry := "A", exit := "C" }

/-- Modelled from the spec: two-branch conditional shape. -/
def ifElseSub : SubGraph :=
  { name := "if_else", roles := ["A", "B", "C", "D"]
  , edges := [("A", "B"), ("A", "C"), ("B", "D"), ("C", "D")]
  , entry := "A", exit := "D" }

/-- Modelled from the spec: conditional-return shape (B returns, so it has
no outgoing edges). -/
def ifReturnSub : SubGraph :=
  { name := "if_return", roles := ["A", "B", "C"]
  , edges := [("A", "B"), ("A", "C")]
  , entry := "A", exit := "C" }

/-- File names of the default pattern library, in priority order; copied
from `subNames` in `restructure.go`. -/
def subNames : List String :=
  ["pre_loop.dot", "post_loop.dot", "list.dot",
   "if.dot", "if_else.dot", "if_return.dot"]

/-- The default pattern library `subs`, in the hard-coded priority order of
`subNames` in `restructure.go`. -/
def subs : List SubGraph :=
  [preLoopSub, postLoopSub, listSub, ifSub, ifElseSub, ifReturnSub]

/-- `findPrim`'s scan over the pattern library: try each pattern in order,
on the first search success merge and build the `Primitive`; error when no
pattern matches (from `findPrim` in `restructure.go`). -/
def findPrimAux (g : Graph) (acc : List Primitive) :
    List SubGraph → Except String (Primitive × Graph)
  | [] => Except.error "unable to locate control flow primitive"
  | sub :: rest =>
    match Search g sub with
    | none => findPrimAux g acc rest
    | some m =>
      let fresh := freshName acc sub.name
      Except.ok ({ prim := sub.name, node := fresh, nodes := m }, mergeG g m fresh)

/-- `findPrim` from `restructure.go`: locate one control flow primitive and
merge its nodes into a single node.  `acc` carries the primitives recorded
so far (the Go code keeps the equivalent naming state inside the merge
package). -/
def findPrim (g : Graph) (acc : List Primitive) : Except String (Primitive × Graph) :=
  findPrimAux g acc subs

/-- The driver loop of `restructure` in `restructure.go`:
`for len(graph.Nodes.Nodes) > 1 { prim, err := findPrim(graph); ... }`.
The fuel argument is only a recursion bound; `restructureFull` supplies
`g.nodes.length`, which is proved sufficient (the fuel branch is never
taken) in `reduceLoop_no_fuel_error` below. -/
def reduceLoop : Nat → Graph → List Primitive → Except String (List Primitive × Graph)
  | 0, g, acc =>
      if g.nodes.length > 1 then Except.error "out of fuel" else Except.ok (acc, g)
  | fuel + 1, g, acc =>
      if g.nodes.length > 1 then
        match findPrim g acc with
        | Except.error e => Except.error e
        | Except.ok (p, g') => reduceLoop fuel g' (acc ++ [p])
      else Except.ok (acc, g)

/-- `restructure` from `restructure.go`, with the final graph kept alongside
the primitive list (the Go code mutates the graph in place).  Parsing the
DOT input is out of scope per the spec; the parsed graph is the input. -/
def restructureFull (g : Graph) : Except String (List Primitive × Graph) :=
  if g.nodes.length = 0 then Except.error "unable to restructure empty graph"
  else reduceLoop g.nodes.length g []

/-- `restructure` as observed by callers: the ordered primitive list. -/
def restructure (g : Graph) : Except String (List Primitive) :=
  Except.map Prod.fst (restructureFull g)

/-- The graph of `testdata/foo.dot`, reproduced in the doc comment of
`restructure.go` (lines 20-29): nodes E,F,G,H; edges E→F, E→H, F→G, G→H. -/
def fooGraph : Graph :=
  { nodes := ["E", "F", "G", "H"]
  , edges := [("E", "F"), ("E", "H"), ("F", "G"), ("G", "H")] }

/-- The input graph exactly as claim C7 and spec scenario 2 describe it:
nodes E,F,G,H,I,J; edges E→F, E→G, F→H, G→I, H→J, I→J and the pre-test-loop
back-edge J→E. -/
def barClaimGraph : Graph :=
  { nodes := ["E", "F", "G", "H", "I", "J"]
  , edges := [("E", "F"), ("E", "G"), ("F", "H"), ("G", "I"),
              ("H", "J"), ("I", "J"), ("J", "E")] }

/-- Modelled from the spec: a pre-test loop (condition E, exit J) whose body
is an if_else diamond (F branches to G and H, joining at I), with back-edges
I→E and I→F.  This input produces the golden `testdata/bar.dot` output of
`restructure_test.go`; `bar.dot` itself is not among the sources. -/
def barGraph : Graph :=
  { nodes := ["E", "F", "G", "H", "I", "J"]
  , edges := [("E", "F"), ("E", "J"), ("F", "G"), ("F", "H"),
              ("G", "I"), ("H", "I"), ("I", "E"), ("I", "F")] }

/-- A graph on which the driver gets stuck after one successful reduction:
P→Q merges to list0, then the two remaining nodes list0, R (now with no
edges) match no pattern. -/
def stuckGraph : Graph :=
  { nodes := ["P", "Q", "R"], edges := [("P", "Q")] }

/-- A two-node graph with no edges: no pattern can match it at all. -/
def noMatchGraph : Graph :=
  { nodes := ["X", "Y"], edges := [] }

/-- A one-node graph. -/
def singleGraph : Graph :=
  { nodes := ["X"], edges := [] }

/-- The zero-node graph. -/
def emptyGraph : Graph :=
  { nodes := [], edges := [] }

end Restructure

/-! ## Helper lemmas -/

namespace Restructure

theorem two_mem_length {l : List String} {a b : String}
    (ha : a ∈ l) (hb : b ∈ l) (hab : a ≠ b) : 2 ≤ l.length := by
  match l with
  | [] => cases ha
  | [x] =>
    simp only [List.mem_singleton] at ha hb
    exact absurd (ha.trans hb.symm) hab
  | x :: y :: rest => simp only [List.length_cons]; omega

theorem assignments_mem {roles nodes : List String} {m : List (String × String)}
    (h : m ∈ assignments roles nodes) :
    m.map Prod.fst = roles ∧ ∀ q ∈ m, q.2 ∈ nodes := by
  induction roles generalizing m with
  | nil =>
    simp only [assignments, List.mem_singleton] at h
    subst h
    simp
  | cons r rs ih =>
    simp only [assignments, List.mem_flatMap, List.mem_map] at h
    obtain ⟨n, hn, m', hm', rfl⟩ := h
    obtain ⟨hfst, hvals⟩ := ih hm'
    refine ⟨by simp [hfst], ?_⟩
    intro q hq
    rcases List.mem_cons.mp hq with hq | hq
    · subst hq; exact hn
    · exact hvals q hq

theorem search_some {g : Graph} {sub : SubGraph} {m : List (String × String)}
    (h : Search g sub = some m) :
    m ∈ assignments sub.roles g.nodes ∧ validMatch g sub m = true :=
  ⟨List.mem_of_find?_eq_some h, List.find?_some h⟩

theorem validMatch_distinct {g : Graph} {sub : SubGraph} {m : List (String × String)}
    (h : validMatch g sub m = true) :
    allDistinct (m.map (fun p => p.2)) = true := by
  unfold validMatch at h
  exact (Bool.and_eq_true_iff.mp ((Bool.and_eq_true_iff.mp h).1)).1

theorem mergeG_length_lt {g : Graph} {sub : SubGraph} {m : List (String × String)}
    (hroles : 2 ≤ sub.roles.length) (hs : Search g sub = some m) (fresh : String) :
    (mergeG g m fresh).nodes.length < g.nodes.length := by
  obtain ⟨hmem, hvalid⟩ := search_some hs
  obtain ⟨hfst, hvals⟩ := assignments_mem hmem
  have hdis := validMatch_distinct hvalid
  have hmlen : 2 ≤ m.length := by
    have hc := congrArg List.length hfst
    simp only [List.length_map] at hc
    omega
  match m, hmlen with
  | q0 :: q1 :: mrest, _ =>
    have hne : q0.2 ≠ q1.2 := by
      simp only [List.map_cons, allDistinct, Bool.and_eq_true, Bool.not_eq_true',
        List.contains_cons] at hdis
      have := hdis.1
      simp only [Bool.or_eq_false_iff] at this
      intro hEq
      have : (q0.2 == q1.2) = false := this.1
      simp [hEq] at this
    have h0 : q0.2 ∈ g.nodes := hvals q0 (by simp)
    have h1 : q1.2 ∈ g.nodes := hvals q1 (by simp)
    set image := (q0 :: q1 :: mrest).map (fun p => p.2) with himage
    have h0i : image.contains q0.2 = true := by simp [himage]
    have h1i : image.contains q1.2 = true := by simp [himage]
    have hmem0 : q0.2 ∈ g.nodes.filter (fun n => image.contains n) :=
      List.mem_filter.mpr ⟨h0, h0i⟩
    have hmem1 : q1.2 ∈ g.nodes.filter (fun n => image.contains n) :=
      List.mem_filter.mpr ⟨h1, h1i⟩
    have h2le : 2 ≤ (g.nodes.filter (fun n => image.contains n)).length :=
      two_mem_length hmem0 hmem1 hne
    have hsplit := List.length_eq_length_filter_add (l := g.nodes)
      (fun n => image.contains n)
    have hgoal : (mergeG g (q0 :: q1 :: mrest) fresh).nodes.length =
        (g.nodes.filter (fun n => !(image.contains n))).length + 1 := by
      show (g.nodes.filter (fun n => !(image.contains n)) ++ [fresh]).length = _
      rw [List.length_append]
      rfl
    omega

theorem findPrimAux_ok {g : Graph} {acc : List Primitive} {l : List SubGraph}
    {p : Primitive} {g' : Graph}
    (h : findPrimAux g acc l = Except.ok (p, g')) :
    ∃ l₁ sub l₂, l = l₁ ++ sub :: l₂ ∧
      (∀ s ∈ l₁, Search g s = none) ∧
      Search g sub = some p.nodes ∧
      p.prim = sub.name ∧ p.node = freshName acc sub.name ∧
      g' = mergeG g p.nodes (freshName acc sub.name) := by
  induction l with
  | nil => simp [findPrimAux] at h
  | cons sub rest ih =>
    rw [findPrimAux] at h
    cases hs : Search g sub with
    | none =>
      rw [hs] at h
      obtain ⟨l₁, sub', l₂, heq, hnone, hrest⟩ := ih h
      refine ⟨sub :: l₁, sub', l₂, by rw [heq]; rfl, ?_, hrest⟩
      intro s hmem
      rcases List.mem_cons.mp hmem with hmem | hmem
      · subst hmem; exact hs
      · exact hnone s hmem
    | some m =>
      rw [hs] at h
      simp only [Except.ok.injEq, Prod.mk.injEq] at h
      obtain ⟨hp, hg'⟩ := h
      subst hp
      exact ⟨[], sub, rest, rfl, by simp, hs, rfl, rfl, hg'.symm⟩

theorem findPrimAux_error {g : Graph} {acc : List Primitive} {l : List SubGraph}
    {e : String} (h : findPrimAux g acc l = Except.error e) :
    e = "unable to locate control flow primitive" := by
  induction l with
  | nil =>
    simp only [findPrimAux, Except.error.injEq] at h
    exact h.symm
  | cons sub rest ih =>
    rw [findPrimAux] at h
    cases hs : Search g sub with
    | none => rw [hs] at h; exact ih h
    | some m => rw [hs] at h; simp at h

theorem findPrimAux_error_search {g : Graph} {acc : List Primitive}
    {l : List SubGraph} {e : String}
    (h : findPrimAux g acc l = Except.error e) :
    ∀ sub ∈ l, Search g sub = none := by
  induction l with
  | nil => intro sub hmem; cases hmem
  | cons s rest ih =>
    rw [findPrimAux] at h
    cases hs : Search g s with
    | none =>
      rw [hs] at h
      intro sub hmem
      rcases List.mem_cons.mp hmem with hmem | hmem
      · subst hmem; exact hs
      · exact ih h sub hmem
    | some m => rw [hs] at h; simp at h

theorem findPrim_length_lt {g : Graph} {acc : List Primitive}
    {p : Primitive} {g' : Graph}
    (h : findPrim g acc = Except.ok (p, g')) :
    g'.nodes.length < g.nodes.length := by
  obtain ⟨l₁, sub, l₂, heq, _, hsearch, _, _, hg'⟩ := findPrimAux_ok h
  have hsub : sub ∈ subs := by
    rw [heq]
    exact List.mem_append_right _ (List.mem_cons_self _ _)
  have hroles : 2 ≤ sub.roles.length := by
    have hall : ∀ s ∈ subs, 2 ≤ s.roles.length := by decide
    exact hall sub hsub
  subst hg'
  exact mergeG_length_lt hroles hsearch _

theorem findPrim_nodes_pos {g : Graph} {acc : List Primitive}
    {p : Primitive} {g' : Graph}
    (h : findPrim g acc = Except.ok (p, g')) :
    1 ≤ g'.nodes.length := by
  obtain ⟨l₁, sub, l₂, _, _, _, _, _, hg'⟩ := findPrimAux_ok h
  subst hg'
  show 1 ≤ (g.nodes.filter _ ++ [freshName acc sub.name]).length
  rw [List.length_append]
  exact Nat.le_add_left 1 _

theorem reduceLoop_ok {fuel : Nat} : ∀ {g : Graph} {acc ps : List Primitive} {gf : Graph},
    1 ≤ g.nodes.length → g.nodes.length ≤ fuel →
    reduceLoop fuel g acc = Except.ok (ps, gf) → gf.nodes.length = 1 := by
  induction fuel with
  | zero => intro g acc ps gf h1 h2 h; omega
  | succ fuel ih =>
    intro g acc ps gf h1 h2 h
    rw [reduceLoop] at h
    by_cases hgt : g.nodes.length > 1
    · rw [if_pos hgt] at h
      cases hf : findPrim g acc with
      | error e => rw [hf] at h; simp at h
      | ok pg =>
        obtain ⟨p, g'⟩ := pg
        rw [hf] at h
        have hlt := findPrim_length_lt hf
        exact ih (findPrim_nodes_pos hf) (by omega) h
    · rw [if_neg hgt] at h
      simp only [Except.ok.injEq, Prod.mk.injEq] at h
      obtain ⟨-, hgf⟩ := h
      subst hgf
      omega

theorem reduceLoop_error {fuel : Nat} : ∀ {g : Graph} {acc : List Primitive} {e : String},
    1 ≤ g.nodes.length → g.nodes.length ≤ fuel →
    reduceLoop fuel g acc = Except.error e →
    e = "unable to locate control flow primitive" := by
  induction fuel with
  | zero => intro g acc e h1 h2 h; omega
  | succ fuel ih =>
    intro g acc e h1 h2 h
    rw [reduceLoop] at h
    by_cases hgt : g.nodes.length > 1
    · rw [if_pos hgt] at h
      cases hf : findPrim g acc with
      | error e' =>
        rw [hf] at h
        simp only [Except.error.injEq] at h
        subst h
        exact findPrimAux_error hf
      | ok pg =>
        obtain ⟨p, g'⟩ := pg
        rw [hf] at h
        have hlt := findPrim_length_lt hf
        exact ih (findPrim_nodes_pos hf) (by omega) h
    · rw [if_neg hgt] at h
      simp at h

theorem restructureFull_final {g : Graph} {ps : List Primitive} {gf : Graph}
    (h : restructureFull g = Except.ok (ps, gf)) : gf.nodes.length = 1 := by
  unfold restructureFull at h
  by_cases h0 : g.nodes.length = 0
  · rw [if_pos h0] at h; simp at h
  · rw [if_neg h0] at h
    exact reduceLoop_ok (by omega) (Nat.le_refl _) h

theorem restructure_error_classify {g : Graph} {e : String}
    (hne : g.nodes ≠ []) (h : restructure g = Except.error e) :
    e = "unable to locate control flow primitive" := by
  unfold restructure at h
  cases hfull : restructureFull g with
  | ok x => rw [hfull] at h; simp [Except.map] at h
  | error e' =>
    rw [hfull] at h
    simp only [Except.map, Except.error.injEq] at h
    subst h
    unfold restructureFull at hfull
    have h0 : g.nodes.length ≠ 0 := by
      intro hlen
      exact hne (List.length_eq_zero.mp hlen)
    rw [if_neg h0] at hfull
    exact reduceLoop_error (by omega) (Nat.le_refl _) hfull

/-! ## Claim theorems -/

/-- C1: On the input graph with nodes E,F,G,H and edges E→F, E→H, F→G, G→H
(`testdata/foo.dot`, reproduced in the doc comment of `restructure.go`),
`restructure` returns exactly the Primitive sequence
[{prim: "list", node: "list0", nodes: {A:F, B:G}},
 {prim: "if", node: "if0", nodes: {A:E, B:list0, C:H}}], in that order,
matching the golden output in `restructure_test.go`. -/
theorem claim_C1 :
    restructure fooGraph = Except.ok
      [ { prim := "list", node := "list0", nodes := [("A", "F"), ("B", "G")] },
        { prim := "if", node := "if0", nodes := [("A", "E"), ("B", "list0"), ("C", "H")] } ] :=
  rfl

/-- C2, counterexample: the claim says that on STUCK `restructure` returns
both the Primitive sequence accumulated so far and the residual graph as a
structured result.  On `stuckGraph`, the first step does find and merge a
`list` primitive (first conjunct), after which no pattern matches, but
`restructure` returns a bare error value (second conjunct): the Go code
(`restructure.go` lines 186-189) returns `nil, errutil.Err(err)`, so the
accumulated primitive and the residual graph are both discarded. -/
theorem claim_C2_counterexample :
    findPrim stuckGraph [] = Except.ok
      ({ prim := "list", node := "list0", nodes := [("A", "P"), ("B", "Q")] },
       { nodes := ["R", "list0"], edges := [] }) ∧
    restructure stuckGraph = Except.error "unable to locate control flow primitive" :=
  ⟨rfl, rfl⟩

/-- C2, amended: when the driver reaches STUCK on a graph with at least one
node, `restructure` returns an error value (not a crash) whose message is
exactly "unable to locate control flow primitive", with a nil Primitive
sequence; the primitives accumulated so far and the residual graph are
discarded, not returned. -/
theorem claim_C2_amended (g : Graph) (e : String) (hne : g.nodes ≠ [])
    (h : restructure g = Except.error e) :
    e = "unable to locate control flow primitive" :=
  restructure_error_classify hne h

theorem claim_C2_witness :
    stuckGraph.nodes ≠ [] ∧
    restructure stuckGraph = Except.error "unable to locate control flow primitive" ∧
    "unable to locate control flow primitive" = "unable to locate control flow primitive" :=
  ⟨by decide, rfl,
   claim_C2_amended stuckGraph "unable to locate control flow primitive" (by decide) rfl⟩

/-- C3: for every input graph with zero nodes, `restructure` fails with the
empty-graph error before any reduction step, returning no Primitive
sequence (`restructure.go` lines 180-182). -/
theorem claim_C3 (g : Graph) (h : g.nodes = []) :
    restructure g = Except.error "unable to restructure empty graph" := by
  obtain ⟨nodes, edges⟩ := g
  simp only at h
  subst h
  rfl

theorem claim_C3_witness :
    emptyGraph.nodes = [] ∧
    restructure emptyGraph = Except.error "unable to restructure empty graph" :=
  ⟨rfl, claim_C3 emptyGraph rfl⟩

/-- C4: for every input graph with exactly one node, `restructure` succeeds
immediately with an empty Primitive sequence and no error, and the graph is
left unchanged (the loop body in `restructure.go` lines 185-191 never
runs). -/
theorem claim_C4 (g : Graph) (h : g.nodes.length = 1) :
    restructureFull g = Except.ok ([], g) ∧ restructure g = Except.ok [] := by
  obtain ⟨x, hx⟩ := List.length_eq_one.mp h
  obtain ⟨nodes, edges⟩ := g
  simp only at hx
  subst hx
  exact ⟨rfl, rfl⟩

theorem claim_C4_witness :
    singleGraph.nodes.length = 1 ∧
    restructureFull singleGraph = Except.ok ([], singleGraph) ∧
    restructure singleGraph = Except.ok [] :=
  ⟨rfl, (claim_C4 singleGraph rfl).1, (claim_C4 singleGraph rfl).2⟩

/-- C5: in every reduction step, `findPrim` tries each pattern in
pattern-library order; the first pattern whose isomorphism search succeeds
is the one merged, and exactly one Primitive recording that pattern's kind,
the fresh synthetic node id and the match mapping is produced; the driver
loop appends exactly that one Primitive and continues on the reduced graph
(`findPrim` in `restructure.go` lines 210-238, loop lines 185-191). -/
theorem claim_C5 (g : Graph) (acc : List Primitive) (p : Primitive) (g' : Graph)
    (h : findPrim g acc = Except.ok (p, g')) :
    (∃ l₁ sub l₂, subs = l₁ ++ sub :: l₂ ∧
      (∀ s ∈ l₁, Search g s = none) ∧
      Search g sub = some p.nodes ∧
      p.prim = sub.name ∧ p.node = freshName acc sub.name ∧
      g' = mergeG g p.nodes (freshName acc sub.name)) ∧
    (∀ fuel, g.nodes.length > 1 →
      reduceLoop (fuel + 1) g acc = reduceLoop fuel g' (acc ++ [p])) := by
  refine ⟨findPrimAux_ok h, ?_⟩
  intro fuel hgt
  rw [reduceLoop, if_pos hgt, h]

theorem claim_C5_witness :
    findPrim fooGraph [] = Except.ok
      ({ prim := "list", node := "list0", nodes := [("A", "F"), ("B", "G")] },
       { nodes := ["E", "H", "list0"]
       , edges := [("E", "list0"), ("E", "H"), ("list0", "H")] }) ∧
    ((∃ l₁ sub l₂, subs = l₁ ++ sub :: l₂ ∧
      (∀ s ∈ l₁, Search fooGraph s = none) ∧
      Search fooGraph sub = some [("A", "F"), ("B", "G")] ∧
      "list" = sub.name ∧ "list0" = freshName [] sub.name ∧
      ({ nodes := ["E", "H", "list0"]
       , edges := [("E", "list0"), ("E", "H"), ("list0", "H")] } : Graph) =
        mergeG fooGraph [("A", "F"), ("B", "G")] (freshName [] sub.name)) ∧
    (∀ fuel, fooGraph.nodes.length > 1 →
      reduceLoop (fuel + 1) fooGraph [] =
        reduceLoop fuel
          { nodes := ["E", "H", "list0"]
          , edges := [("E", "list0"), ("E", "H"), ("list0", "H")] }
          ([] ++ [{ prim := "list", node := "list0", nodes := [("A", "F"), ("B", "G")] }]))) :=
  ⟨rfl,
   claim_C5 fooGraph []
     { prim := "list", node := "list0", nodes := [("A", "F"), ("B", "G")] }
     { nodes := ["E", "H", "list0"]
     , edges := [("E", "list0"), ("E", "H"), ("list0", "H")] }
     rfl⟩

/-- C6: `restructure` is deterministic: two runs on the same node list and
edge list (and the fixed pattern order `subs`) produce identical Primitive
sequences.  In this embedding the search considers candidates in a fixed
stable order (spec section 4.2), so the result is a pure function of the
graph data. -/
theorem claim_C6 (g₁ g₂ : Graph) (hn : g₁.nodes = g₂.nodes) (he : g₁.edges = g₂.edges) :
    restructure g₁ = restructure g₂ := by
  obtain ⟨n₁, e₁⟩ := g₁
  obtain ⟨n₂, e₂⟩ := g₂
  simp only at hn he
  subst hn
  subst he
  rfl

theorem claim_C6_witness :
    fooGraph.nodes = fooGraph.nodes ∧ fooGraph.edges = fooGraph.edges ∧
    restructure fooGraph = restructure fooGraph :=
  ⟨rfl, rfl, claim_C6 fooGraph fooGraph rfl rfl⟩

/-- C7, counterexample: on the input graph exactly as the claim states it
(nodes E,F,G,H,I,J; edges E→F, E→G, F→H, G→I, H→J, I→J plus the
pre-test-loop back-edge J→E), the first located primitive is a `list` (the
chain F→H has no other edges touching its interior), not the claimed
`if_else`: the claimed match {A:F, B:G, C:H, D:I} is impossible because the
graph has only the two edges F→H and G→I among those four nodes, while a
connected four-node pattern needs at least three.  The first conjunct gives
the actual run, the second that it differs from the claimed sequence. -/
theorem claim_C7_counterexample :
    restructure barClaimGraph = Except.ok
      [ { prim := "list", node := "list0", nodes := [("A", "F"), ("B", "H")] },
        { prim := "list", node := "list1", nodes := [("A", "G"), ("B", "I")] },
        { prim := "list", node := "list2", nodes := [("A", "J"), ("B", "E")] },
        { prim := "pre_loop", node := "pre_loop0"
        , nodes := [("A", "list2"), ("B", "list0"), ("C", "list1")] } ] ∧
    ([ { prim := "list", node := "list0", nodes := [("A", "F"), ("B", "H")] },
       { prim := "list", node := "list1", nodes := [("A", "G"), ("B", "I")] },
       { prim := "list", node := "list2", nodes := [("A", "J"), ("B", "E")] },
       { prim := "pre_loop", node := "pre_loop0"
       , nodes := [("A", "list2"), ("B", "list0"), ("C", "list1")] } ] : List Primitive) ≠
    [ { prim := "if_else", node := "if_else0"
      , nodes := [("A", "F"), ("B", "G"), ("C", "H"), ("D", "I")] },
      { prim := "pre_loop", node := "pre_loop0"
      , nodes := [("A", "E"), ("B", "if_else0"), ("C", "J")] } ] :=
  ⟨rfl, by decide⟩

/-- C7, amended: on the input graph with nodes E,F,G,H,I,J and edges E→F,
E→J, F→G, F→H, G→I, H→I, I→E, I→F (a pre-test loop with condition E and
exit J whose body is the if_else diamond F,G,H,I, with back-edges I→E and
I→F), `restructure` returns exactly the Primitive sequence
[{prim: "if_else", node: "if_else0", nodes: {A:F, B:G, C:H, D:I}},
 {prim: "pre_loop", node: "pre_loop0", nodes: {A:E, B:if_else0, C:J}}],
in that order — the golden output of `restructure_test.go` for
`testdata/bar.dot`. -/
theorem claim_C7_amended :
    restructure barGraph = Except.ok
      [ { prim := "if_else", node := "if_else0"
        , nodes := [("A", "F"), ("B", "G"), ("C", "H"), ("D", "I")] },
        { prim := "pre_loop", node := "pre_loop0"
        , nodes := [("A", "E"), ("B", "if_else0"), ("C", "J")] } ] :=
  rfl

/-- C8: the driver loop terminates, and stops exactly at success (one node
left) or at STUCK (no pattern matches): every successful `findPrim` step
strictly decreases the node count (first conjunct); whenever the loop ends
without error the residual graph has exactly one node (second conjunct);
and the only error a run on a non-empty graph can end with is the
no-pattern-matches error (third conjunct). -/
theorem claim_C8 :
    (∀ (g : Graph) (acc : List Primitive) (p : Primitive) (g' : Graph),
        findPrim g acc = Except.ok (p, g') → g'.nodes.length < g.nodes.length) ∧
    (∀ (g : Graph) (ps : List Primitive) (gf : Graph),
        restructureFull g = Except.ok (ps, gf) → gf.nodes.length = 1) ∧
    (∀ (g : Graph) (e : String), g.nodes ≠ [] →
        restructure g = Except.error e →
        e = "unable to locate control flow primitive") :=
  ⟨fun _ _ _ _ h => findPrim_length_lt h,
   fun _ _ _ h => restructureFull_final h,
   fun _ _ hne h => restructure_error_classify hne h⟩

theorem claim_C8_witness :
    ({ nodes := ["E", "H", "list0"]
     , edges := [("E", "list0"), ("E", "H"), ("list0", "H")] } : Graph).nodes.length <
      fooGraph.nodes.length ∧
    ({ nodes := ["if0"], edges := [] } : Graph).nodes.length = 1 ∧
    "unable to locate control flow primitive" = "unable to locate control flow primitive" :=
  ⟨claim_C8.1 fooGraph []
     { prim := "list", node := "list0", nodes := [("A", "F"), ("B", "G")] }
     { nodes := ["E", "H", "list0"]
     , edges := [("E", "list0"), ("E", "H"), ("list0", "H")] } rfl,
   claim_C8.2.1 fooGraph
     [ { prim := "list", node := "list0", nodes := [("A", "F"), ("B", "G")] },
       { prim := "if", node := "if0", nodes := [("A", "E"), ("B", "list0"), ("C", "H")] } ]
     { nodes := ["if0"], edges := [] } rfl,
   claim_C8.2.2 stuckGraph "unable to locate control flow primitive" (by decide) rfl⟩

/-- C9: when `findPrim` fails, every pattern's search on the current graph
returned no match, so the merge step (which runs only after a successful
search, `restructure.go` lines 211-226) was never reached in that step and
the graph is left unchanged — the error outcome is atomic with respect to
graph state. -/
theorem claim_C9 (g : Graph) (acc : List Primitive) (e : String)
    (h : findPrim g acc = Except.error e) :
    ∀ sub ∈ subs, Search g sub = none :=
  findPrimAux_error_search h

theorem claim_C9_witness :
    findPrim noMatchGraph [] = Except.error "unable to locate control flow primitive" ∧
    Search noMatchGraph listSub = none :=
  ⟨rfl,
   claim_C9 noMatchGraph [] "unable to locate control flow primitive" rfl listSub
     (by decide)⟩

/-- C10: the default pattern library consists of exactly six patterns,
tried in the fixed hard-coded priority order pre_loop, post_loop, list, if,
if_else, if_return (`subNames` in `restructure.go` lines 261-264, loaded in
that order by `init`). -/
theorem claim_C10 :
    subNames = ["pre_loop.dot", "post_loop.dot", "list.dot",
                "if.dot", "if_else.dot", "if_return.dot"] ∧
    subs.length = 6 ∧
    subs.map (fun s => s.name) =
      ["pre_loop", "post_loop", "list", "if", "if_else", "if_return"] ∧
    subNames = subs.map (fun s => s.name ++ ".dot") :=
  ⟨rfl, rfl, rfl, rfl⟩

end Restructure
